import Mathlib

/-!
Verification of the `go-concurrent-web-scraper` repository against its
natural-language specification.

The development shallowly embeds the two core components:

* `fetcher/fetch.go` — `FetchWithRetry(url, retries)`: a retry loop around a
  blocking HTTP GET.  The network is modelled by an environment
  `env : Nat → GetOutcome` giving the outcome of the i-th GET attempt
  (0-indexed): either a transport-level error (`http.Get` returned a non-nil
  error) or a transport-level success carrying an HTTP status code and the
  outcome of reading the response body.  The embedding returns, besides the
  `(string, error)` pair of the Go function, an execution trace: the number of
  GET attempts performed and the list of backoff sleeps (in time units) in the
  order they happened.

* `worker/pool.go` — `Start(ctx, id, jobs, results)`: a worker loop built on a
  Go `select` over context cancellation and the jobs channel.  The resolution
  of each `select` is modelled by a list of `WakeEvent`s (the branch taken at
  each iteration); the worker's observable behaviour is the list of strings
  pushed to the results channel, the console lines it prints, and the way it
  terminated.
-/

set_option maxHeartbeats 1000000

namespace Scraper

instance {ε α : Type} [DecidableEq ε] [DecidableEq α] : DecidableEq (Except ε α) := fun x y =>
  match x, y with
  | Except.ok a, Except.ok b =>
      decidable_of_iff (a = b) ⟨fun h => by rw [h], fun h => by injection h⟩
  | Except.error a, Except.error b =>
      decidable_of_iff (a = b) ⟨fun h => by rw [h], fun h => by injection h⟩
  | Except.ok _, Except.error _ => isFalse fun h => Except.noConfusion h
  | Except.error _, Except.ok _ => isFalse fun h => Except.noConfusion h

/-- Outcome of a single `http.Get(url)` call together with the subsequent body
read: `transportError msg` models `http.Get` returning a non-nil error (whose
`%v` rendering is `msg`); `response status bodyRead` models a transport-level
success with the given HTTP status code, where `bodyRead` is the outcome
`io.ReadAll(resp.Body)` would have (read only when the status is 200). -/
inductive GetOutcome where
  | transportError (msg : String)
  | response (status : Nat) (bodyRead : Except String String)
deriving DecidableEq, Repr

/-- The transport-level error of an attempt, as the Go variable `err` holds it
after `resp, err = http.Get(url)`: `some msg` for a transport error, `none`
(Go `nil`) for any transport-level success, whatever its status. -/
def attemptErr : GetOutcome → Option String
  | GetOutcome.transportError msg => some msg
  | GetOutcome.response _ _ => none

/-- Whether an attempt fails the check `err == nil && resp.StatusCode == 200`
of `fetch.go` and hence sends the loop into the backoff/retry path. -/
def attemptFails : GetOutcome → Bool
  | GetOutcome.transportError _ => true
  | GetOutcome.response status _ => status != 200

/-- Rendering of a Go `error` value by the `%v` verb: a nil error prints
as `<nil>`. -/
def renderGoErr : Option String → String
  | none => "<nil>"
  | some s => s

/-- The error values `FetchWithRetry` can return, as built by its two
`fmt.Errorf` calls; `render` gives the message string `%v` would print. -/
inductive FetchError where
  | readBody (msg : String)
  | exhausted (retries : Int) (last : Option String)
deriving DecidableEq, Repr

/-- Message string of a `FetchError`, mirroring the two `fmt.Errorf` format
strings of `fetch.go`. -/
def FetchError.render : FetchError → String
  | FetchError.readBody msg => "error reading body: " ++ msg
  | FetchError.exhausted retries last =>
      "failed after " ++ toString retries ++ " retries: " ++ renderGoErr last

/-- Result of a run of `FetchWithRetry` together with its execution trace:
`body` and `err` are the Go return values (`err = none` is Go `nil`),
`attempts` counts the `http.Get` calls performed, and `waits` lists the
backoff sleeps in time units (seconds), in order. -/
structure FetchTrace where
  body : String
  err : Option FetchError
  attempts : Nat
  waits : List Nat
deriving DecidableEq, Repr

/-- The retry loop `for i := 0; i < retries; i++` of `fetch.go`, one
iteration per unit of `fuel` (the number of loop iterations still allowed),
with `i` the current loop index, `lastErr` the current value of the Go
variable `err`, and `attempts`/`waits` the trace accumulated so far.  When
fuel runs out the loop exits and the function returns
`fmt.Errorf("failed after %d retries: %v", retries, err)`. -/
def fetchLoop (env : Nat → GetOutcome) (retries : Int) :
    Nat → Nat → Option String → Nat → List Nat → FetchTrace
  | 0, _, lastErr, attempts, waits =>
      ⟨"", some (FetchError.exhausted retries lastErr), attempts, waits⟩
  | fuel + 1, i, _, attempts, waits =>
      match env i with
      | GetOutcome.transportError msg =>
          fetchLoop env retries fuel (i + 1) (some msg) (attempts + 1) (waits ++ [i + 1])
      | GetOutcome.response status bodyRead =>
          if status = 200 then
            match bodyRead with
            | Except.ok b => ⟨b, none, attempts + 1, waits⟩
            | Except.error msg => ⟨"", some (FetchError.readBody msg), attempts + 1, waits⟩
          else
            fetchLoop env retries fuel (i + 1) none (attempts + 1) (waits ++ [i + 1])

/-- `FetchWithRetry(url, retries)` of `fetcher/fetch.go`, run against the
network environment `env`: the loop starts at `i = 0` with `err = nil` and
runs at most `retries` iterations (none when `retries ≤ 0`, since the Go
loop condition `i < retries` fails immediately). -/
def FetchWithRetry (env : Nat → GetOutcome) (url : String) (retries : Int) : FetchTrace :=
  fetchLoop env retries retries.toNat 0 none 0 []

/-- Value of the Go variable `err` after the attempts `i, i+1, ..., i+k-1`
have all failed, starting from value `lastErr`: the transport error of the
last of those attempts (or `lastErr` when `k = 0`). -/
def lastErrAfter (env : Nat → GetOutcome) (i : Nat) (lastErr : Option String) : Nat → Option String
  | 0 => lastErr
  | k + 1 => attemptErr (env (i + k))

theorem fetchLoop_skip (env : Nat → GetOutcome) (retries : Int) (fuel i : Nat)
    (lastErr : Option String) (attempts : Nat) (waits : List Nat)
    (h : attemptFails (env i) = true) :
    fetchLoop env retries (fuel + 1) i lastErr attempts waits
      = fetchLoop env retries fuel (i + 1) (attemptErr (env i)) (attempts + 1)
          (waits ++ [i + 1]) := by
  cases henv : env i with
  | transportError msg => simp [fetchLoop, henv, attemptErr]
  | response status bodyRead =>
      have hs : status ≠ 200 := by
        simpa [attemptFails, henv] using h
      simp [fetchLoop, henv, hs, attemptErr]

theorem fetchLoop_skipMany (env : Nat → GetOutcome) (retries : Int) (k : Nat) :
    ∀ (fuel i : Nat) (lastErr : Option String) (attempts : Nat) (waits : List Nat),
      (∀ j, j < k → attemptFails (env (i + j)) = true) → k ≤ fuel →
      fetchLoop env retries fuel i lastErr attempts waits
        = fetchLoop env retries (fuel - k) (i + k) (lastErrAfter env i lastErr k)
            (attempts + k) (waits ++ List.range' (i + 1) k) := by
  induction k with
  | zero => intro fuel i lastErr attempts waits _ _; simp [lastErrAfter]
  | succ k ih =>
      intro fuel i lastErr attempts waits hfail hle
      obtain ⟨f, rfl⟩ : ∃ f, fuel = f + 1 := ⟨fuel - 1, by omega⟩
      rw [fetchLoop_skip env retries f i lastErr attempts waits
        (by simpa using hfail 0 (Nat.succ_pos k))]
      rw [ih f (i + 1) (attemptErr (env i)) (attempts + 1) (waits ++ [i + 1])
        (fun j hj => by
          have := hfail (j + 1) (by omega)
          simpa [Nat.add_assoc, Nat.add_comm 1 j, Nat.add_left_comm] using this)
        (by omega)]
      have hlast : lastErrAfter env (i + 1) (attemptErr (env i)) k
          = lastErrAfter env i lastErr (k + 1) := by
        cases k with
        | zero => simp [lastErrAfter]
        | succ m => simp [lastErrAfter, Nat.add_assoc, Nat.add_comm 1 m, Nat.add_left_comm]
      have hwaits : (waits ++ [i + 1]) ++ List.range' (i + 1 + 1) k
          = waits ++ List.range' (i + 1) (k + 1) := by
        rw [List.range'_succ]
        simp
      have hfuel : f + 1 - (k + 1) = f - k := by omega
      have hi : i + 1 + k = i + (k + 1) := by omega
      have hatt : attempts + 1 + k = attempts + (k + 1) := by omega
      rw [hlast, hwaits, hfuel, hi, hatt]

theorem fetch_all_fail (env : Nat → GetOutcome) (url : String) (n : Nat)
    (hfail : ∀ j, j < n → attemptFails (env j) = true) :
    FetchWithRetry env url n
      = ⟨"", some (FetchError.exhausted n (lastErrAfter env 0 none n)), n, List.range' 1 n⟩ := by
  have ht : ((n : Int)).toNat = n := by omega
  unfold FetchWithRetry
  rw [ht, fetchLoop_skipMany env n n n 0 none 0 []
    (fun j hj => by simpa using hfail j hj) le_rfl]
  simp [fetchLoop]

theorem fetch_success_at (env : Nat → GetOutcome) (url : String) (n k : Nat) (body : String)
    (hk : k < n) (hpre : ∀ j, j < k → attemptFails (env j) = true)
    (h200 : env k = GetOutcome.response 200 (Except.ok body)) :
    FetchWithRetry env url n = ⟨body, none, k + 1, List.range' 1 k⟩ := by
  have ht : ((n : Int)).toNat = n := by omega
  unfold FetchWithRetry
  rw [ht, fetchLoop_skipMany env n k n 0 none 0 []
    (fun j hj => by simpa using hpre j hj) (le_of_lt hk)]
  obtain ⟨m, hm⟩ : ∃ m, n - k = m + 1 := ⟨n - k - 1, by omega⟩
  rw [hm]
  simp [fetchLoop, h200]

theorem fetch_readBody_at (env : Nat → GetOutcome) (url : String) (n k : Nat) (msg : String)
    (hk : k < n) (hpre : ∀ j, j < k → attemptFails (env j) = true)
    (h200 : env k = GetOutcome.response 200 (Except.error msg)) :
    FetchWithRetry env url n = ⟨"", some (FetchError.readBody msg), k + 1, List.range' 1 k⟩ := by
  have ht : ((n : Int)).toNat = n := by omega
  unfold FetchWithRetry
  rw [ht, fetchLoop_skipMany env n k n 0 none 0 []
    (fun j hj => by simpa using hpre j hj) (le_of_lt hk)]
  obtain ⟨m, hm⟩ : ∃ m, n - k = m + 1 := ⟨n - k - 1, by omega⟩
  rw [hm]
  simp [fetchLoop, h200]

theorem fetchLoop_attempts_le (env : Nat → GetOutcome) (retries : Int) :
    ∀ (fuel i : Nat) (lastErr : Option String) (attempts : Nat) (waits : List Nat),
      (fetchLoop env retries fuel i lastErr attempts waits).attempts ≤ attempts + fuel := by
  intro fuel
  induction fuel with
  | zero => intro i lastErr attempts waits; simp [fetchLoop]
  | succ f ih =>
      intro i lastErr attempts waits
      cases henv : env i with
      | transportError msg =>
          simp only [fetchLoop, henv]
          have := ih (i + 1) (some msg) (attempts + 1) (waits ++ [i + 1])
          omega
      | response status bodyRead =>
          by_cases hs : status = 200
          · subst hs
            cases bodyRead with
            | ok b => simp [fetchLoop, henv]
            | error msg => simp [fetchLoop, henv]
          · simp only [fetchLoop, henv, if_neg hs]
            have := ih (i + 1) none (attempts + 1) (waits ++ [i + 1])
            omega

/-- C1: for every url and retries `n ≥ 1`, if attempts `0, …, k-1` (0-indexed)
all fail and attempt `k < n` is a transport-level success with HTTP status
exactly 200 whose body read succeeds, `FetchWithRetry` returns that body
immediately after attempt `k`: exactly `k + 1` GET attempts occur and the only
backoff waits are the ones before the retries, `1, …, k` time units — nothing
follows the 200. -/
theorem fetchWithRetry_success_immediate (env : Nat → GetOutcome) (url : String)
    (n k : Nat) (body : String) (hn : 1 ≤ n) (hk : k < n)
    (hpre : ∀ j, j < k → attemptFails (env j) = true)
    (h200 : env k = GetOutcome.response 200 (Except.ok body)) :
    FetchWithRetry env url n = ⟨body, none, k + 1, List.range' 1 k⟩ :=
  fetch_success_at env url n k body hk hpre h200

/-- C1 witness: with attempt 0 a transport error and attempt 1 returning 200
with body "hello", `FetchWithRetry` with budget 3 returns "hello" after 2
attempts and a single 1-unit wait. -/
theorem fetchWithRetry_success_immediate_witness :
    1 ≤ 3 ∧ 1 < 3 ∧
    (∀ j, j < 1 → attemptFails
      ((fun j => if j = 0 then GetOutcome.transportError "t0"
        else GetOutcome.response 200 (Except.ok "hello")) j) = true) ∧
    ((fun j => if j = 0 then GetOutcome.transportError "t0"
        else GetOutcome.response 200 (Except.ok "hello")) 1
      = GetOutcome.response 200 (Except.ok "hello")) ∧
    FetchWithRetry (fun j => if j = 0 then GetOutcome.transportError "t0"
        else GetOutcome.response 200 (Except.ok "hello")) "u" 3
      = ⟨"hello", none, 1 + 1, List.range' 1 1⟩ :=
  ⟨by decide, by decide, by decide, by decide,
    fetchWithRetry_success_immediate _ "u" 3 1 "hello" (by decide) (by decide)
      (by decide) (by decide)⟩

/-- C2: for every url and retries `n ≥ 1`, `FetchWithRetry` performs at most
`n` GET attempts, and whenever it returns the exhausted-retries error
(`fmt.Errorf("failed after %d retries: %v", …)`), exactly `n` attempts were
performed and every one of them failed (transport error or non-200 status). -/
theorem fetchWithRetry_retry_bound (env : Nat → GetOutcome) (url : String) (n : Nat)
    (hn : 1 ≤ n) :
    (FetchWithRetry env url n).attempts ≤ n ∧
    (∀ r last, (FetchWithRetry env url n).err = some (FetchError.exhausted r last) →
      (FetchWithRetry env url n).attempts = n ∧
      ∀ j, j < n → attemptFails (env j) = true) := by
  have ht : ((n : Int)).toNat = n := by omega
  constructor
  · have := fetchLoop_attempts_le env n n 0 none 0 []
    unfold FetchWithRetry
    rw [ht]
    omega
  · intro r last hr
    by_cases hall : ∀ j, j < n → attemptFails (env j) = true
    · rw [fetch_all_fail env url n hall]
      exact ⟨rfl, hall⟩
    · exfalso
      push_neg at hall
      obtain ⟨j, hj, hjf⟩ := hall
      have hex : ∃ m, attemptFails (env m) = false := ⟨j, by simpa using hjf⟩
      have hkf : attemptFails (env (Nat.find hex)) = false := Nat.find_spec hex
      have hkmin : ∀ m, m < Nat.find hex → attemptFails (env m) = true := fun m hm => by
        have := Nat.find_min hex hm
        simpa using this
      have hkn : Nat.find hex < n :=
        lt_of_le_of_lt (Nat.find_min' hex (by simpa using hjf)) hj
      cases henv : env (Nat.find hex) with
      | transportError msg => simp [attemptFails, henv] at hkf
      | response status bodyRead =>
          have hs : status = 200 := by simpa [attemptFails, henv] using hkf
          subst hs
          cases bodyRead with
          | ok b =>
              rw [fetch_success_at env url n (Nat.find hex) b hkn hkmin henv] at hr
              simp at hr
          | error msg =>
              rw [fetch_readBody_at env url n (Nat.find hex) msg hkn hkmin henv] at hr
              simp at hr

/-- C2 witness: with every attempt a transport error and budget 2, the run
performs 2 attempts (within the bound) and the exhausted-retries error indeed
comes with exactly 2 failed attempts. -/
theorem fetchWithRetry_retry_bound_witness :
    1 ≤ 2 ∧
    ((FetchWithRetry (fun _ => GetOutcome.transportError "boom") "u" 2).attempts ≤ 2 ∧
     (∀ r last, (FetchWithRetry (fun _ => GetOutcome.transportError "boom") "u" 2).err
         = some (FetchError.exhausted r last) →
       (FetchWithRetry (fun _ => GetOutcome.transportError "boom") "u" 2).attempts = 2 ∧
       ∀ j, j < 2 → attemptFails ((fun _ => GetOutcome.transportError "boom") j) = true)) :=
  ⟨by decide, fetchWithRetry_retry_bound (fun _ => GetOutcome.transportError "boom") "u" 2
    (by decide)⟩

/-- C3 counterexample: the claim says a run of `n` failed attempts incurs
waits of `1, …, n-1` time units "and nothing more", i.e. no wait after the
final failed attempt.  On the code, with `retries = 1` and a single failing
attempt, the `time.Sleep` inside the loop body still runs after that final
attempt: the run incurs the wait list `[1]`, not the empty list
`List.range' 1 (1 - 1) = []` the claim predicts. -/
theorem fetchWithRetry_backoff_counterexample :
    (FetchWithRetry (fun _ => GetOutcome.transportError "boom") "u" 1).waits = [1] ∧
    (FetchWithRetry (fun _ => GetOutcome.transportError "boom") "u" 1).waits
      ≠ List.range' 1 (1 - 1) := by
  decide

/-- C3 amended: the wait after failed attempt `i` (0-indexed) is exactly
`(i+1)` time units and no wait precedes the first attempt, but the sleep also
runs after the final failed attempt: a run of `n` failed attempts incurs waits
of exactly `1, 2, …, n` time units (`List.range' 1 n`), not `1, …, n-1`. -/
theorem fetchWithRetry_backoff_waits (env : Nat → GetOutcome) (url : String) (n : Nat)
    (hn : 1 ≤ n) (hfail : ∀ j, j < n → attemptFails (env j) = true) :
    (FetchWithRetry env url n).waits = List.range' 1 n := by
  rw [fetch_all_fail env url n hfail]

/-- C3 witness: two failing attempts with budget 2 incur the waits `[1, 2]`. -/
theorem fetchWithRetry_backoff_waits_witness :
    1 ≤ 2 ∧ (∀ j, j < 2 → attemptFails ((fun _ => GetOutcome.transportError "x") j) = true) ∧
    (FetchWithRetry (fun _ => GetOutcome.transportError "x") "u" 2).waits = List.range' 1 2 :=
  ⟨by decide, by decide,
    fetchWithRetry_backoff_waits (fun _ => GetOutcome.transportError "x") "u" 2
      (by decide) (by decide)⟩

/-- C4: a transport-level success with non-200 status is treated exactly like
a transport error for retry purposes: if every one of the `n ≥ 1` attempts
returns a non-200 response, the loop never short-circuits and fails terminally
after exactly `n` attempts (with `err` still Go `nil`, hence `last = none`);
moreover the attempt count and wait trace coincide with those of any run whose
`n` attempts are all transport errors. -/
theorem fetchWithRetry_non200_retried (env : Nat → GetOutcome) (url : String) (n : Nat)
    (hn : 1 ≤ n)
    (hall : ∀ j, j < n → ∃ s b, env j = GetOutcome.response s b ∧ s ≠ 200) :
    FetchWithRetry env url n
        = ⟨"", some (FetchError.exhausted n none), n, List.range' 1 n⟩ ∧
    ∀ env2 : Nat → GetOutcome, (∀ j, j < n → ∃ m, env2 j = GetOutcome.transportError m) →
      (FetchWithRetry env url n).attempts = (FetchWithRetry env2 url n).attempts ∧
      (FetchWithRetry env url n).waits = (FetchWithRetry env2 url n).waits := by
  have hfail : ∀ j, j < n → attemptFails (env j) = true := by
    intro j hj
    obtain ⟨s, b, heq, hs⟩ := hall j hj
    simp [attemptFails, heq]
    exact hs
  have hlast : lastErrAfter env 0 none n = none := by
    cases n with
    | zero => simp [lastErrAfter]
    | succ m =>
        obtain ⟨s, b, heq, -⟩ := hall m (by omega)
        simp [lastErrAfter, heq, attemptErr]
  constructor
  · rw [fetch_all_fail env url n hfail, hlast]
  · intro env2 h2
    have hfail2 : ∀ j, j < n → attemptFails (env2 j) = true := by
      intro j hj
      obtain ⟨m, heq⟩ := h2 j hj
      simp [attemptFails, heq]
    rw [fetch_all_fail env url n hfail, fetch_all_fail env2 url n hfail2]
    exact ⟨rfl, rfl⟩

/-- C4 witness: two attempts both answering status 500 with budget 2 fail
terminally after exactly 2 attempts. -/
theorem fetchWithRetry_non200_retried_witness :
    1 ≤ 2 ∧
    (∀ j, j < 2 → ∃ s b,
      (fun _ => GetOutcome.response 500 (Except.ok "")) j = GetOutcome.response s b ∧
      s ≠ 200) ∧
    (FetchWithRetry (fun _ => GetOutcome.response 500 (Except.ok "")) "u" 2
        = ⟨"", some (FetchError.exhausted 2 none), 2, List.range' 1 2⟩ ∧
     ∀ env2 : Nat → GetOutcome, (∀ j, j < 2 → ∃ m, env2 j = GetOutcome.transportError m) →
       (FetchWithRetry (fun _ => GetOutcome.response 500 (Except.ok "")) "u" 2).attempts
         = (FetchWithRetry env2 "u" 2).attempts ∧
       (FetchWithRetry (fun _ => GetOutcome.response 500 (Except.ok "")) "u" 2).waits
         = (FetchWithRetry env2 "u" 2).waits) :=
  ⟨by decide, fun j hj => ⟨500, Except.ok "", rfl, by decide⟩,
    fetchWithRetry_non200_retried (fun _ => GetOutcome.response 500 (Except.ok "")) "u" 2
      (by decide) (fun j hj => ⟨500, Except.ok "", rfl, by decide⟩)⟩

/-- C5: if attempts `0, …, k-1` fail and attempt `k < n` is a 200 response
whose body read fails, `FetchWithRetry` returns immediately with the empty
string and the error `fmt.Errorf("error reading body: %v", err)`: exactly
`k + 1` attempts occur, the remaining budget is never used, and the body read
is not reattempted. -/
theorem fetchWithRetry_body_read_terminal (env : Nat → GetOutcome) (url : String)
    (n k : Nat) (msg : String) (hn : 1 ≤ n) (hk : k < n)
    (hpre : ∀ j, j < k → attemptFails (env j) = true)
    (h200 : env k = GetOutcome.response 200 (Except.error msg)) :
    FetchWithRetry env url n = ⟨"", some (FetchError.readBody msg), k + 1, List.range' 1 k⟩ ∧
    (FetchWithRetry env url n).err.map FetchError.render
      = some ("error reading body: " ++ msg) := by
  have h := fetch_readBody_at env url n k msg hk hpre h200
  rw [h]
  exact ⟨rfl, rfl⟩

/-- C5 witness: the very first attempt returns 200 but its body read fails;
with budget 3, the run stops after 1 attempt with the body-read error. -/
theorem fetchWithRetry_body_read_terminal_witness :
    1 ≤ 3 ∧ 0 < 3 ∧
    (∀ j, j < 0 → attemptFails
      ((fun _ => GetOutcome.response 200 (Except.error "eof")) j) = true) ∧
    ((fun _ => GetOutcome.response 200 (Except.error "eof")) 0
      = GetOutcome.response 200 (Except.error "eof")) ∧
    (FetchWithRetry (fun _ => GetOutcome.response 200 (Except.error "eof")) "u" 3
        = ⟨"", some (FetchError.readBody "eof"), 0 + 1, List.range' 1 0⟩ ∧
     (FetchWithRetry (fun _ => GetOutcome.response 200 (Except.error "eof")) "u" 3).err.map
         FetchError.render = some ("error reading body: " ++ "eof")) :=
  ⟨by decide, by decide, by decide, by decide,
    fetchWithRetry_body_read_terminal (fun _ => GetOutcome.response 200 (Except.error "eof"))
      "u" 3 0 "eof" (by decide) (by decide) (by decide) (by decide)⟩

/-- C6: when all `n ≥ 1` attempts fail, the returned error wraps the retry
count `n` and the transport error of the final attempt (Go `nil`, rendered
`<nil>`, when the final attempt was a transport-level success with non-200
status), and its message renders as
`failed after <n> retries: <lastError>`. -/
theorem fetchWithRetry_exhausted_error_shape (env : Nat → GetOutcome) (url : String)
    (n : Nat) (hn : 1 ≤ n) (hfail : ∀ j, j < n → attemptFails (env j) = true) :
    (FetchWithRetry env url n).err
        = some (FetchError.exhausted n (attemptErr (env (n - 1)))) ∧
    (FetchWithRetry env url n).err.map FetchError.render
      = some ("failed after " ++ toString (n : Int) ++ " retries: "
          ++ renderGoErr (attemptErr (env (n - 1)))) := by
  have hlast : lastErrAfter env 0 none n = attemptErr (env (n - 1)) := by
    cases n with
    | zero => omega
    | succ m => simp [lastErrAfter]
  rw [fetch_all_fail env url n hfail, hlast]
  exact ⟨rfl, rfl⟩

/-- C6 witness: attempt 0 is a transport error and the final attempt 1 fails
only by its 500 status, so the wrapped last error is Go `nil` and the message
renders as "failed after 2 retries: <nil>". -/
theorem fetchWithRetry_exhausted_error_shape_witness :
    1 ≤ 2 ∧
    (∀ j, j < 2 → attemptFails
      ((fun j => if j = 0 then GetOutcome.transportError "boom"
        else GetOutcome.response 500 (Except.ok "")) j) = true) ∧
    ((FetchWithRetry (fun j => if j = 0 then GetOutcome.transportError "boom"
        else GetOutcome.response 500 (Except.ok "")) "u" 2).err
        = some (FetchError.exhausted 2 (attemptErr
            ((fun j => if j = 0 then GetOutcome.transportError "boom"
              else GetOutcome.response 500 (Except.ok "")) (2 - 1)))) ∧
     (FetchWithRetry (fun j => if j = 0 then GetOutcome.transportError "boom"
        else GetOutcome.response 500 (Except.ok "")) "u" 2).err.map FetchError.render
        = some ("failed after " ++ toString (2 : Int) ++ " retries: "
            ++ renderGoErr (attemptErr
              ((fun j => if j = 0 then GetOutcome.transportError "boom"
                else GetOutcome.response 500 (Except.ok "")) (2 - 1))))) :=
  ⟨by decide, by decide,
    fetchWithRetry_exhausted_error_shape (fun j => if j = 0 then GetOutcome.transportError "boom"
      else GetOutcome.response 500 (Except.ok "")) "u" 2 (by decide) (by decide)⟩

/-- C10: called with `retries ≤ 0`, the Go loop condition `i < retries` fails
immediately: no GET attempt and no backoff wait happen, and the function
returns the empty string with the error rendering as
`failed after <retries> retries: <nil>` — never success. -/
theorem fetchWithRetry_nonpositive_retries (env : Nat → GetOutcome) (url : String)
    (retries : Int) (h : retries ≤ 0) :
    FetchWithRetry env url retries
        = ⟨"", some (FetchError.exhausted retries none), 0, []⟩ ∧
    (FetchWithRetry env url retries).err.map FetchError.render
      = some ("failed after " ++ toString retries ++ " retries: <nil>") := by
  have ht : retries.toNat = 0 := by omega
  have h1 : FetchWithRetry env url retries
      = ⟨"", some (FetchError.exhausted retries none), 0, []⟩ := by
    unfold FetchWithRetry
    rw [ht]
    simp [fetchLoop]
  rw [h1]
  refine ⟨rfl, ?_⟩
  simp [FetchError.render, renderGoErr, String.append_assoc]

/-- C10 witness: with `retries = -2` the run performs zero attempts, waits
nowhere, and returns the error rendering "failed after -2 retries: <nil>". -/
theorem fetchWithRetry_nonpositive_retries_witness :
    (-2 : Int) ≤ 0 ∧
    (FetchWithRetry (fun _ => GetOutcome.transportError "x") "u" (-2)
        = ⟨"", some (FetchError.exhausted (-2) none), 0, []⟩ ∧
     (FetchWithRetry (fun _ => GetOutcome.transportError "x") "u" (-2)).err.map
         FetchError.render
       = some ("failed after " ++ toString (-2 : Int) ++ " retries: <nil>")) :=
  ⟨by decide,
    fetchWithRetry_nonpositive_retries (fun _ => GetOutcome.transportError "x") "u" (-2)
      (by decide)⟩

/-- How a worker's loop terminated: via the `ctx.Done()` branch of the
`select` (`canceled`) or via the jobs channel reporting closed-and-empty
(`closedQueue`). -/
inductive TermPath where
  | canceled
  | closedQueue
deriving DecidableEq, Repr

/-- Resolution of one iteration of the worker's `select` in `worker/pool.go`:
the `ctx.Done()` case fired, the jobs channel reported closed (`ok == false`),
or a job (URL) was received. -/
inductive WakeEvent where
  | ctxDone
  | closed
  | job (url : String)
deriving DecidableEq, Repr

/-- Observable behaviour of one worker's run: the strings pushed to the
`results` channel in order, the console lines printed by the worker itself,
and how (or whether yet) the loop terminated. -/
structure WorkerRun where
  results : List String
  console : List String
  terminated : Option TermPath
deriving DecidableEq, Repr

/-- The console line `fmt.Printf("[Worker %d] Stopping\n", id)` prints (without
the trailing newline). -/
def stopLine (id : Nat) : String :=
  "[Worker " ++ toString id ++ "] Stopping"

/-- The single result string a worker pushes for the job `url`: it calls
`fetcher.FetchWithRetry(url, 3)` and formats either the error line or the
success line with `len(body)`, the byte length of the fetched body. -/
def resultLine (fetchEnv : String → Nat → GetOutcome) (id : Nat) (url : String) : String :=
  let r := FetchWithRetry (fetchEnv url) url 3
  match r.err with
  | some e => "Worker " ++ toString id ++ ": Error fetching " ++ url ++ ": " ++ e.render
  | none => "Worker " ++ toString id ++ ": Fetched " ++ url ++ ", length: "
      ++ toString r.body.utf8ByteSize

namespace Worker

/-- `worker.Start(ctx, id, jobs, results)` of `worker/pool.go`, run against
the list of `select` resolutions `events` (one per loop iteration) and the
network environment `fetchEnv` (per-URL attempt outcomes).  An empty remaining
list models a worker still blocked in its `select`. -/
def Start (fetchEnv : String → Nat → GetOutcome) (id : Nat) :
    List WakeEvent → WorkerRun
  | [] => ⟨[], [], none⟩
  | WakeEvent.ctxDone :: _ => ⟨[], [stopLine id], some TermPath.canceled⟩
  | WakeEvent.closed :: _ => ⟨[], [], some TermPath.closedQueue⟩
  | WakeEvent.job url :: rest =>
      let r := Start fetchEnv id rest
      ⟨resultLine fetchEnv id url :: r.results, r.console, r.terminated⟩

end Worker

/-- The jobs a worker takes ownership of: the URLs received before the first
terminating `select` resolution. -/
def jobsTaken : List WakeEvent → List String
  | [] => []
  | WakeEvent.ctxDone :: _ => []
  | WakeEvent.closed :: _ => []
  | WakeEvent.job url :: rest => url :: jobsTaken rest

/-- The termination path a given list of `select` resolutions leads to, if
any. -/
def termPathOf : List WakeEvent → Option TermPath
  | [] => none
  | WakeEvent.ctxDone :: _ => some TermPath.canceled
  | WakeEvent.closed :: _ => some TermPath.closedQueue
  | WakeEvent.job _ :: rest => termPathOf rest

theorem Worker_Start_eq (fetchEnv : String → Nat → GetOutcome) (id : Nat)
    (events : List WakeEvent) :
    Worker.Start fetchEnv id events
      = ⟨(jobsTaken events).map (resultLine fetchEnv id),
         if termPathOf events = some TermPath.canceled then [stopLine id] else [],
         termPathOf events⟩ := by
  induction events with
  | nil => simp [Worker.Start, jobsTaken, termPathOf]
  | cons e rest ih =>
      cases e with
      | ctxDone => simp [Worker.Start, jobsTaken, termPathOf]
      | closed => simp [Worker.Start, jobsTaken, termPathOf]
      | job url => simp [Worker.Start, jobsTaken, termPathOf, ih]

/-- C7: for every job a worker takes from the jobs channel it pushes exactly
one result string — computed by invoking the fetch engine with a retry budget
of 3 and formatted as the success line `Worker <id>: Fetched <url>, length:
<n>` (with `n` the byte length of the body) or the error line `Worker <id>:
Error fetching <url>: <detail>` — and results appear one per job, in job
order: never zero, never two. -/
theorem worker_one_result_per_job (fetchEnv : String → Nat → GetOutcome) (id : Nat)
    (events : List WakeEvent) :
    (Worker.Start fetchEnv id events).results
      = (jobsTaken events).map (resultLine fetchEnv id) := by
  rw [Worker_Start_eq]

/-- C8: the stop notice `[Worker <id>] Stopping` is printed exactly once when
the worker terminates via the cancellation branch, and not at all otherwise
(in particular not on the normal closed-and-empty termination); termination is
never reported through the results channel: the results pushed are exactly one
line per job taken before termination, so nothing — neither jobs nor notices —
follows an observed cancellation. -/
theorem worker_stop_notice (fetchEnv : String → Nat → GetOutcome) (id : Nat)
    (events : List WakeEvent) :
    (Worker.Start fetchEnv id events).console
      = (if (Worker.Start fetchEnv id events).terminated = some TermPath.canceled
          then [stopLine id] else []) ∧
    (Worker.Start fetchEnv id events).results
      = (jobsTaken events).map (resultLine fetchEnv id) := by
  rw [Worker_Start_eq]
  exact ⟨rfl, rfl⟩

/-- One resolved `select` iteration of a worker, in an execution where the
Cancellation Signal may have been raised: `canceledBefore` records whether
`cancel()` had already been called when this `select` resolved (making the
`ctx.Done()` case ready), and `event` is the branch the `select` took. -/
structure SchedStep where
  canceledBefore : Bool
  event : WakeEvent
deriving DecidableEq, Repr

/-- Go `select` semantics for the worker loop, given whether cancellation was
already raised before the first step: cancellation is one-way (once raised it
stays raised), and the `ctx.Done()` branch can fire only once cancellation is
raised — but nothing forces the `select` to prefer the ready `ctx.Done()`
case over a ready job: when both are ready, Go chooses between them
arbitrarily. -/
def validSched : Bool → List SchedStep → Bool
  | _, [] => true
  | c, s :: rest =>
      (!c || s.canceledBefore)
        && (match s.event with
            | WakeEvent.ctxDone => s.canceledBefore
            | _ => true)
        && validSched s.canceledBefore rest

/-- Whether the worker begins a new job at some step after the Cancellation
Signal has been raised (only steps the worker actually reaches count: a
terminating step ends the run). -/
def beginsJobAfterCancel : List SchedStep → Bool
  | [] => false
  | s :: rest =>
      match s.event with
      | WakeEvent.ctxDone => false
      | WakeEvent.closed => false
      | WakeEvent.job _ => s.canceledBefore || beginsJobAfterCancel rest

/-- C9 counterexample: the claim says that once the Cancellation Signal is
raised no worker begins a new job.  The schedule in which cancellation is
already raised and the `select` — choosing arbitrarily between its two
simultaneously ready cases, as Go `select` does — resolves to a waiting job is
valid, yet the worker takes that job: it begins a new job after the signal was
raised. -/
theorem worker_may_begin_job_after_cancel :
    validSched false [⟨true, WakeEvent.job "http://a.test"⟩] = true ∧
    beginsJobAfterCancel [⟨true, WakeEvent.job "http://a.test"⟩] = true ∧
    jobsTaken (List.map SchedStep.event [⟨true, WakeEvent.job "http://a.test"⟩])
      = ["http://a.test"] := by
  decide

/-- C9 amended: a worker that observes cancellation (its `select` resolves to
the `ctx.Done()` branch) terminates immediately and never takes another job —
its run is unaffected by anything scheduled after that observation; but while
cancellation is merely raised and a job is simultaneously available, the
`select` may resolve to the job, so a worker can still begin a new job after
the signal is raised. -/
theorem worker_stops_on_observed_cancellation (fetchEnv : String → Nat → GetOutcome)
    (id : Nat) (pre post : List WakeEvent) :
    Worker.Start fetchEnv id (pre ++ WakeEvent.ctxDone :: post)
      = Worker.Start fetchEnv id (pre ++ [WakeEvent.ctxDone]) := by
  induction pre with
  | nil => rfl
  | cons e rest ih =>
      cases e with
      | ctxDone => rfl
      | closed => rfl
      | job url => simp [Worker.Start, ih]

end Scraper
